import Mathlib

/-!
Shallow embedding of `src/simulate_and_report.py` (the DCA simulation core).

Modelling conventions:
* Calendar dates (pandas timestamps) are modelled by `Date` records `(y, m, d)`
  compared lexicographically via `Date.ble`.
* Python floats are modelled by rationals; the NaN value that pandas
  introduces during `reindex(...).ffill()` is modelled by `Fl := Option ℚ`
  with `none` playing the role of NaN.  Arithmetic on `Fl` propagates `none`
  exactly as IEEE arithmetic propagates NaN, and every comparison involving
  `none` is false, exactly as every ordered comparison on NaN is false.
* A downloaded dataframe column is a `List (Date × Option ℚ)`: the rows of
  the frame in index order, `none` marking a NaN cell; `.dropna()` is
  `dropna`, `.loc[d]` (first match, matching the source's `iloc[0]` guard)
  is `seriesLoc`.
* The module-level configuration constants (`COMMISSION_MODE`,
  `FX_SPREAD_MODE`) and the I/O performed by `simulate`
  (`safe_download("QQQ")`, `safe_download("TWD=X")`, reading
  `actual_snapshot.json`) are passed as explicit parameters.
* Exceptions (`ValueError` from the mode tables and from
  `pick_trade_dates`) are modelled with `Except SimError`.
* The warning strings appended to `warn` are modelled by the inductive
  `Warning`, one constructor per distinct message of the source.
-/

/-- A calendar date, `(year, month, day)`. -/
structure Date where
  y : ℕ
  m : ℕ
  d : ℕ
deriving DecidableEq, Repr

/-- Lexicographic comparison of dates, the order pandas timestamps carry. -/
def Date.ble (a b : Date) : Bool :=
  a.y.blt b.y || (a.y == b.y && (a.m.blt b.m || (a.m == b.m && a.d.ble b.d)))

/-- Propositional form of `Date.ble`. -/
def Date.le (a b : Date) : Prop := Date.ble a b = true

instance : DecidableRel Date.le := fun a b => inferInstanceAs (Decidable (_ = true))

/-- The `(year, month)` pair `pick_trade_dates` groups by. -/
def monthKey (t : Date) : ℕ × ℕ := (t.y, t.m)

/-- Python float values as they occur in the simulation: a rational, or NaN
(`none`), which enters via `reindex(...).ffill()` over date gaps. -/
abbrev Fl := Option ℚ

/-- Float addition; NaN-propagating. -/
def fadd : Fl → Fl → Fl
  | some a, some b => some (a + b)
  | _, _ => none

/-- Float subtraction; NaN-propagating. -/
def fsub : Fl → Fl → Fl
  | some a, some b => some (a - b)
  | _, _ => none

/-- Float multiplication; NaN-propagating. -/
def fmul : Fl → Fl → Fl
  | some a, some b => some (a * b)
  | _, _ => none

/-- Float division; NaN-propagating.  (Division by an actual zero would raise
`ZeroDivisionError` in Python; the data-model invariant keeps prices and the
sanity-checked rates nonzero, and `ℚ` division by zero is junk-valued 0.) -/
def fdiv : Fl → Fl → Fl
  | some a, some b => some (a / b)
  | _, _ => none

/-- Float strict comparison `a < b`: false whenever either side is NaN,
exactly as in Python (`nan < 1` is `False`). -/
def fltB : Fl → Fl → Bool
  | some a, some b => decide (a < b)
  | _, _ => false

/-- Python's `max(x, 0.0)`: keeps `x` unless `0.0 > x`, so NaN stays NaN and
a real value is clamped below by `0`. -/
def fmax0 : Fl → Fl
  | some a => some (max a 0)
  | none => none

/-- `usd_gross = monthly_twd / rate` (the source's local of the same name). -/
def usdGross (monthly : ℚ) (rate : Fl) : Fl := fdiv (some monthly) rate

/-- `usd_net_fx = usd_gross * (1 - fx_spread)`. -/
def usdNetFx (gross : Fl) (spread : ℚ) : Fl := fmul gross (some (1 - spread))

/-- `usd_after_fee = max(usd_net_fx - commission, 0.0)`. -/
def usdAfterFee (netFx : Fl) (commission : ℚ) : Fl := fmax0 (fsub netFx (some commission))

/-- `shares = usd_after_fee / price`. -/
def sharesBought (afterFee : Fl) (price : ℚ) : Fl := fdiv afterFee (some price)

/-- `.dropna()` on a dataframe column: keep the rows whose cell is not NaN. -/
def dropna (l : List (Date × Option ℚ)) : List (Date × ℚ) :=
  l.filterMap (fun p => p.2.map (fun v => (p.1, v)))

/-- `series.loc[t]`, first match (the source guards duplicate labels with
`iloc[0]`); `none` when the label is absent. -/
def seriesLoc {α : Type} (l : List (Date × α)) (t : Date) : Option α :=
  match l with
  | [] => none
  | (s, v) :: rest => if s = t then some v else seriesLoc rest t

/-- The date filter `price_index[(price_index >= start) & (price_index <= end)]`. -/
def rangeFilter (idx : List Date) (startD endD : Date) : List Date :=
  idx.filter (fun t => Date.ble startD t && Date.ble t endD)

/-- `df.groupby(["y", "m"]).head(1)` over rows in index order: keep a row iff
its `(year, month)` key has not been seen on an earlier row.  `seen` is the
accumulator of already-emitted keys. -/
def headPerGroup (seen : List (ℕ × ℕ)) : List Date → List Date
  | [] => []
  | t :: rest =>
    if monthKey t ∈ seen then headPerGroup seen rest
    else t :: headPerGroup (monthKey t :: seen) rest

/-- `df.groupby(["y", "m"]).tail(1)`: keep a row iff no later row shares its
`(year, month)` key; rows stay in index order. -/
def tailPerGroup (l : List Date) : List Date :=
  (headPerGroup [] l.reverse).reverse

/-- The `ValueError`s the source can raise, one constructor per `raise`. -/
inductive SimError where
  /-- `pick_trade_dates`: "mode must be month_start or month_end". -/
  | invalidTradeMode : SimError
  /-- `cathay_commission_usd`: "COMMISSION_MODE must be 'etf_normal' or 'dca'". -/
  | invalidCommissionMode : SimError
  /-- `cathay_fx_oneway_spread`: "FX_SPREAD_MODE must be 'digital' or 'spot'". -/
  | invalidFxSpreadMode : SimError
deriving DecidableEq, Repr

/-- `pick_trade_dates(price_index, start, end, mode)`: restrict to
`[start, end]`, group by `(year, month)`, keep the first (`month_start`) or
last (`month_end`) trading date of each month; unknown modes raise. -/
def pick_trade_dates (idx : List Date) (startD endD : Date) (mode : String) :
    Except SimError (List Date) :=
  let dates := rangeFilter idx startD endD
  if mode = "month_start" then .ok (headPerGroup [] dates)
  else if mode = "month_end" then .ok (tailPerGroup dates)
  else .error .invalidTradeMode

/-- `cathay_commission_usd(mode)`. -/
def cathay_commission_usd (mode : String) : Except SimError ℚ :=
  if mode = "etf_normal" then .ok 3
  else if mode = "dca" then .ok (1 / 10)
  else .error .invalidCommissionMode

/-- `cathay_fx_oneway_spread(mode)`. -/
def cathay_fx_oneway_spread (mode : String) : Except SimError ℚ :=
  if mode = "digital" then .ok (1 / 1000)
  else if mode = "spot" then .ok (19 / 10000)
  else .error .invalidFxSpreadMode

/-- A JSON value stored under `"fx_twd_per_usd"` in `actual_snapshot.json`,
classified by how Python's `float(...)` treats it. -/
inductive JsonVal where
  /-- A JSON number. -/
  | num (q : ℚ) : JsonVal
  /-- A string that `float` parses, e.g. `"32.5"`. -/
  | strNum (q : ℚ) : JsonVal
  /-- A string that `float` rejects (`ValueError`). -/
  | strBad (s : String) : JsonVal
  /-- A JSON boolean: `float(True) = 1.0`, `float(False) = 0.0`. -/
  | boolv (b : Bool) : JsonVal
  /-- JSON `null`: `snap.get` returns `None`, caught before `float`. -/
  | nullv : JsonVal
  /-- A JSON array or object: `float` raises `TypeError`. -/
  | comp : JsonVal
deriving DecidableEq, Repr

/-- Python `float(v)` on a JSON value; `none` when it raises. -/
def jsonToFloat : JsonVal → Option ℚ
  | .num q => some q
  | .strNum q => some q
  | .strBad _ => none
  | .boolv b => some (if b then 1 else 0)
  | .nullv => none
  | .comp => none

/-- The parsed content of `actual_snapshot.json`, reduced to the single field
the fallback path consumes (the remaining snapshot fields feed only the
report renderer). -/
structure Snapshot where
  fx_twd_per_usd : Option JsonVal
deriving DecidableEq, Repr

/-- The state of `actual_snapshot.json` on disk. -/
inductive SnapshotFile where
  /-- `Path("actual_snapshot.json").exists()` is false. -/
  | missing : SnapshotFile
  /-- The file exists but `json.loads` raises (caught by the `except`). -/
  | notJson : SnapshotFile
  /-- The file exists and parses. -/
  | parsed (s : Snapshot) : SnapshotFile
deriving DecidableEq, Repr

/-- The module constant `FX_FALLBACK_TWD_PER_USD = 32.0`. -/
def FX_FALLBACK_TWD_PER_USD : ℚ := 32

/-- `read_fx_fallback_from_snapshot(default_fx)`, with the file state passed
explicitly. -/
def read_fx_fallback_from_snapshot (file : SnapshotFile) (default_fx : ℚ) : ℚ :=
  match file with
  | .missing => default_fx
  | .notJson => default_fx
  | .parsed s =>
    match s.fx_twd_per_usd with
    | none => default_fx
    | some .nullv => default_fx
    | some v =>
      match jsonToFloat v with
      | none => default_fx
      | some fx => if 1 < fx then fx else default_fx

/-- The warning strings `simulate` appends to `warn`, one constructor per
distinct message. -/
inductive Warning where
  /-- "QQQ 價格資料抓不到（Yahoo Finance）。本次僅更新持倉快照區塊。" -/
  | qqqMissing : Warning
  /-- "QQQ Close 欄位為空。本次僅更新持倉快照區塊。" -/
  | qqqCloseEmpty : Warning
  /-- "TWD=X 匯率資料抓不到（Yahoo Finance），改用備援匯率 value TWD/USD。";
  the rendered message embeds the fallback value. -/
  | fxFallbackUsed (value : ℚ) : Warning
  /-- "本區間沒有可用交易日（可能是剛好假日或資料未更新）。" -/
  | noTradeDates : Warning
  /-- "匯率數值異常（<1），本次以備援匯率取代。" -/
  | rateBelowOne : Warning
deriving DecidableEq, Repr

/-- Is this the rate-implausibility warning? -/
def isRateWarn : Warning → Bool
  | .rateBelowOne => true
  | _ => false

/-- Is this the rate-fallback warning (the one that mentions the fallback
value)? -/
def isFallbackWarn : Warning → Bool
  | .fxFallbackUsed _ => true
  | _ => false

/-- One row of the result dataframe, with exactly the keys of the `rows`
dict of the source (the `date` cell stores the ISO string of the date). -/
structure PeriodRecord where
  date : Date
  fx_twd_per_usd_mid : Fl
  qqq_price_usd : ℚ
  twd_contribution : ℚ
  fx_oneway_spread : ℚ
  commission_usd : ℚ
  usd_after_fx_and_fee : Fl
  shares_bought : Fl
  total_shares : Fl
  portfolio_value_twd : Fl
deriving DecidableEq, Repr

/-- The numeric cells of a row, in column order. -/
def PeriodRecord.numbers (r : PeriodRecord) : List Fl :=
  [r.fx_twd_per_usd_mid, some r.qqq_price_usd, some r.twd_contribution,
   some r.fx_oneway_spread, some r.commission_usd, r.usd_after_fx_and_fee,
   r.shares_bought, r.total_shares, r.portfolio_value_twd]

/-- The fixed column list of the result dataframe. -/
def ledgerCols : List String :=
  ["date", "fx_twd_per_usd_mid", "qqq_price_usd", "twd_contribution",
   "fx_oneway_spread", "commission_usd", "usd_after_fx_and_fee",
   "shares_bought", "total_shares", "portfolio_value_twd"]

/-- The result dataframe: its column list and its rows. -/
structure Ledger where
  cols : List String
  rows : List PeriodRecord
deriving DecidableEq, Repr

/-- `fx_mid`: the `Close` column of the downloaded `TWD=X` frame after
`.dropna()`, or an empty series when the frame is empty or has no `Close`. -/
def fxMidOf (fxRaw : List (Date × Option ℚ)) (fxHasClose : Bool) : List (Date × ℚ) :=
  if !fxRaw.isEmpty && fxHasClose then dropna fxRaw else []

/-- `ffill` after `reindex`: walk the price index; an exact rate observation
resets the carry, any other price date receives the carry (initially NaN). -/
def ffillGo (fx : List (Date × ℚ)) (carry : Fl) : List Date → List (Date × Fl)
  | [] => []
  | t :: rest =>
    match seriesLoc fx t with
    | some v => (t, some v) :: ffillGo fx (some v) rest
    | none => (t, carry) :: ffillGo fx carry rest

/-- `fx_mid.reindex(qqq_price.index).ffill()`. -/
def reindexFfill (fx : List (Date × ℚ)) (idx : List Date) : List (Date × Fl) :=
  ffillGo fx none idx

/-- `qqq_price = qqq["Close"].dropna()`, as a dated series. -/
def qqqPriceOf (qqqRaw : List (Date × Option ℚ)) : List (Date × ℚ) := dropna qqqRaw

/-- The price date index `qqq_price.index`. -/
def qqqIdxOf (qqqRaw : List (Date × Option ℚ)) : List Date :=
  (qqqPriceOf qqqRaw).map Prod.fst

/-- The `fx_rate` series of `simulate`: the aligned rate series when any rate
observation exists, otherwise the constant fallback series over the price
index. -/
def fxRateOf (fxRaw : List (Date × Option ℚ)) (fxHasClose : Bool)
    (snap : SnapshotFile) (idx : List Date) : List (Date × Fl) :=
  let fx_mid := fxMidOf fxRaw fxHasClose
  if !fx_mid.isEmpty then reindexFfill fx_mid idx
  else idx.map (fun t =>
    (t, some (read_fx_fallback_from_snapshot snap FX_FALLBACK_TWD_PER_USD)))

/-- The warning the `fx_rate` branch appends: none when rates were aligned,
the fallback warning (carrying the fallback value) otherwise. -/
def fxWarnOf (fxRaw : List (Date × Option ℚ)) (fxHasClose : Bool)
    (snap : SnapshotFile) : List Warning :=
  if !(fxMidOf fxRaw fxHasClose).isEmpty then []
  else [Warning.fxFallbackUsed
    (read_fx_fallback_from_snapshot snap FX_FALLBACK_TWD_PER_USD)]

/-- The row the loop body of `simulate` appends for trade date `t`, given the
accumulated `total_shares` before this period. -/
def mkRow (snap : SnapshotFile) (monthly commission fx_spread : ℚ)
    (fx_rate : List (Date × Fl)) (qqq_price : List (Date × ℚ))
    (total : Fl) (t : Date) : PeriodRecord :=
  let rate0 : Fl := (seriesLoc fx_rate t).getD none
  let rate : Fl :=
    if fltB rate0 (some 1) then
      some (read_fx_fallback_from_snapshot snap FX_FALLBACK_TWD_PER_USD)
    else rate0
  let price : ℚ := (seriesLoc qqq_price t).getD 0
  let gross := usdGross monthly rate
  let netFx := usdNetFx gross fx_spread
  let afterFee := usdAfterFee netFx commission
  let shares := sharesBought afterFee price
  let total2 := fadd total shares
  { date := t
    fx_twd_per_usd_mid := rate
    qqq_price_usd := price
    twd_contribution := monthly
    fx_oneway_spread := fx_spread
    commission_usd := commission
    usd_after_fx_and_fee := afterFee
    shares_bought := shares
    total_shares := total2
    portfolio_value_twd := fmul (fmul total2 (some price)) rate }

/-- The per-period loop of `simulate`: produces the rows and the warnings the
loop appends (`rateBelowOne`, one per period whose raw rate reads below
one), threading `total_shares` through. -/
def simLoop (snap : SnapshotFile) (monthly commission fx_spread : ℚ)
    (fx_rate : List (Date × Fl)) (qqq_price : List (Date × ℚ)) :
    List Date → Fl → List PeriodRecord × List Warning
  | [], _ => ([], [])
  | t :: rest, total =>
    let row := mkRow snap monthly commission fx_spread fx_rate qqq_price total t
    let tail := simLoop snap monthly commission fx_spread fx_rate qqq_price rest
      row.total_shares
    (row :: tail.1,
      (if fltB ((seriesLoc fx_rate t).getD none) (some 1)
       then [Warning.rateBelowOne] else []) ++ tail.2)

/-- `simulate(start, end, monthly_twd, trade_mode)`.  The two downloads, the
`Close`-column presence of the rate frame, the snapshot file and the two
module-level mode constants are explicit parameters; everything else follows
the source line by line: QQQ emptiness checks, rate alignment or constant
fallback, trade-date selection (which may raise), the empty-selection early
return, the two cost lookups (which may raise), then the per-period loop. -/
def simulate (qqqRaw fxRaw : List (Date × Option ℚ)) (fxHasClose : Bool)
    (snap : SnapshotFile) (commissionMode fxSpreadMode : String)
    (startD endD : Date) (monthly_twd : ℚ) (trade_mode : String) :
    Except SimError (Ledger × List Warning) :=
  if qqqRaw.isEmpty then
    .ok (⟨ledgerCols, []⟩, [Warning.qqqMissing])
  else
    let qqq_price := qqqPriceOf qqqRaw
    if qqq_price.isEmpty then
      .ok (⟨ledgerCols, []⟩, [Warning.qqqCloseEmpty])
    else
      let idx := qqq_price.map Prod.fst
      let fx_rate := fxRateOf fxRaw fxHasClose snap idx
      let warnFx := fxWarnOf fxRaw fxHasClose snap
      match pick_trade_dates idx startD endD trade_mode with
      | .error err => .error err
      | .ok trade_dates =>
        if trade_dates.isEmpty then
          .ok (⟨ledgerCols, []⟩, warnFx ++ [Warning.noTradeDates])
        else
          match cathay_commission_usd commissionMode with
          | .error err => .error err
          | .ok commission =>
            match cathay_fx_oneway_spread fxSpreadMode with
            | .error err => .error err
            | .ok fx_spread =>
              let res := simLoop snap monthly_twd commission fx_spread fx_rate
                qqq_price trade_dates (some 0)
              .ok (⟨ledgerCols, res.1⟩, warnFx ++ res.2)

/-- The floor-threaded check behind the monotonicity claim: every row's
cumulative `total_shares` is an actual (non-NaN) value at least the floor,
and the floors chain, so the column is non-negative and non-decreasing. -/
def totalsMonoFrom (floor : ℚ) : List PeriodRecord → Bool
  | [] => true
  | r :: rest =>
    match r.total_shares with
    | some q => decide (floor ≤ q) && totalsMonoFrom q rest
    | none => false

/-- `total_shares` is non-negative and non-decreasing along the ledger, in
float semantics (a NaN entry fails the check, as NaN comparisons are false). -/
def totalsMonotone (rows : List PeriodRecord) : Bool :=
  totalsMonoFrom 0 rows

/-- Carry-or-last: the last element of the list, or the carry when empty.
`lastObs c obs` is the value forward-fill leaves after consuming `obs`. -/
def lastObs (c : Fl) : List ℚ → Fl
  | [] => c
  | a :: rest => lastObs (some a) rest

/-! Concrete inputs used by the closed instances below. -/

/-- 2026-01-01. -/
def d0101 : Date := ⟨2026, 1, 1⟩

/-- 2026-01-05. -/
def d0105 : Date := ⟨2026, 1, 5⟩

/-- 2026-01-06. -/
def d0106 : Date := ⟨2026, 1, 6⟩

/-- 2026-01-07. -/
def d0107 : Date := ⟨2026, 1, 7⟩

/-- 2026-01-20. -/
def d0120 : Date := ⟨2026, 1, 20⟩

/-- 2026-02-03. -/
def d0203 : Date := ⟨2026, 2, 3⟩

/-- 2026-02-05. -/
def d0205 : Date := ⟨2026, 2, 5⟩

/-- 2026-09-01. -/
def d0901 : Date := ⟨2026, 9, 1⟩

/-- 2026-12-31. -/
def d1231 : Date := ⟨2026, 12, 31⟩

/-- The single ledger row of the run with price 400 USD, rate 32 TWD/USD,
contribution 10000 TWD: `4947/16 = 309.1875`, `4947/6400 = 0.77296875`. -/
def rowC2 : PeriodRecord :=
  { date := d0105, fx_twd_per_usd_mid := some 32, qqq_price_usd := 400,
    twd_contribution := 10000, fx_oneway_spread := 1 / 1000, commission_usd := 3,
    usd_after_fx_and_fee := some (4947 / 16), shares_bought := some (4947 / 6400),
    total_shares := some (4947 / 6400), portfolio_value_twd := some 9894 }

/-- The single ledger row of the run with price 500 USD, rate 40 TWD/USD,
contribution 10000 TWD. -/
def rowC7w : PeriodRecord :=
  { date := d0105, fx_twd_per_usd_mid := some 40, qqq_price_usd := 500,
    twd_contribution := 10000, fx_oneway_spread := 1 / 1000, commission_usd := 3,
    usd_after_fx_and_fee := some (987 / 4), shares_bought := some (987 / 2000),
    total_shares := some (987 / 2000), portfolio_value_twd := some 9870 }

/-- The single ledger row of the run with price 400 USD, rate 32 TWD/USD and
a 50 TWD contribution, small enough that the 3 USD commission swallows the
whole converted amount: the max-with-zero floor clamps the net to 0. -/
def rowC8w : PeriodRecord :=
  { date := d0105, fx_twd_per_usd_mid := some 32, qqq_price_usd := 400,
    twd_contribution := 50, fx_oneway_spread := 1 / 1000, commission_usd := 3,
    usd_after_fx_and_fee := some 0, shares_bought := some 0,
    total_shares := some 0, portfolio_value_twd := some 0 }

/-! Basic lemmas about the series primitives. -/

/-- A successful `.loc` lookup returns a cell of the series. -/
theorem seriesLoc_mem {α : Type} (t : Date) (v : α) (l : List (Date × α))
    (h : seriesLoc l t = some v) : (t, v) ∈ l := by
  induction l with
  | nil => simp [seriesLoc] at h
  | cons p rest ih =>
    obtain ⟨s, w⟩ := p
    rw [seriesLoc] at h
    split at h
    · next hs =>
      subst hs
      obtain rfl : w = v := Option.some.inj h
      exact List.mem_cons_self _ _
    · exact List.mem_cons_of_mem _ (ih h)

/-- Looking a present label up in a constant series yields the constant. -/
theorem seriesLoc_map_const (c : Fl) (t : Date) (idx : List Date) (h : t ∈ idx) :
    seriesLoc (idx.map (fun s => (s, c))) t = some c := by
  induction idx with
  | nil => cases h
  | cons a rest ih =>
    rw [List.map_cons, seriesLoc]
    by_cases ha : a = t
    · simp [ha]
    · have ht : t ∈ rest := by
        rcases List.mem_cons.mp h with h1 | h2
        · exact absurd h1.symm ha
        · exact h2
      simp [ha, ih ht]

/-- The clamped net amount never compares below zero (NaN comparisons are
false, and `max _ 0` is non-negative). -/
theorem fltB_fmax0_zero (x : Fl) : fltB (fmax0 x) (some 0) = false := by
  cases x with
  | none => rfl
  | some a =>
    simp only [fmax0, fltB]
    exact decide_eq_false (not_lt.mpr (le_max_right a 0))

/-- `read_fx_fallback_from_snapshot` either returns its default or a value
strictly greater than one. -/
theorem read_fx_fallback_cases (file : SnapshotFile) (dflt : ℚ) :
    read_fx_fallback_from_snapshot file dflt = dflt ∨
      1 < read_fx_fallback_from_snapshot file dflt := by
  cases file with
  | missing => exact Or.inl rfl
  | notJson => exact Or.inl rfl
  | parsed s =>
    obtain ⟨fx⟩ := s
    rcases fx with _ | v
    · exact Or.inl rfl
    · cases v with
      | num q =>
        show (if 1 < q then q else dflt) = dflt ∨ 1 < if 1 < q then q else dflt
        by_cases h1 : 1 < q
        · exact Or.inr (by rw [if_pos h1]; exact h1)
        · exact Or.inl (if_neg h1)
      | strNum q =>
        show (if 1 < q then q else dflt) = dflt ∨ 1 < if 1 < q then q else dflt
        by_cases h1 : 1 < q
        · exact Or.inr (by rw [if_pos h1]; exact h1)
        · exact Or.inl (if_neg h1)
      | strBad s0 => exact Or.inl rfl
      | boolv b =>
        cases b with
        | false =>
          exact Or.inl (show (if (1 : ℚ) < 0 then (0 : ℚ) else dflt) = dflt from
            if_neg (by norm_num))
        | true =>
          exact Or.inl (show (if (1 : ℚ) < 1 then (1 : ℚ) else dflt) = dflt from
            if_neg (by norm_num))
      | nullv => exact Or.inl rfl
      | comp => exact Or.inl rfl

/-- Whenever the hard-coded default exceeds one, so does the fallback rate
actually used. -/
theorem read_fx_fallback_gt_one (file : SnapshotFile) (dflt : ℚ) (hd : 1 < dflt) :
    1 < read_fx_fallback_from_snapshot file dflt := by
  rcases read_fx_fallback_cases file dflt with h | h
  · rw [h]; exact hd
  · exact h

/-- Positional characterization of `reindex(...).ffill()` with an arbitrary
initial carry: the `i`-th aligned cell pairs the `i`-th price date with the
last exact observation made at one of the first `i + 1` price dates, or the
carry when there is none. -/
theorem ffillGo_get (fx : List (Date × ℚ)) :
    ∀ (idx : List Date) (carry : Fl) (i : ℕ),
      (ffillGo fx carry idx)[i]? =
        idx[i]?.map (fun t =>
          (t, lastObs carry ((idx.take (i + 1)).filterMap (fun s => seriesLoc fx s))))
  | [], carry, i => by simp [ffillGo]
  | t :: rest, carry, i => by
    rw [ffillGo]
    cases hv : seriesLoc fx t with
    | some v =>
      cases i with
      | zero => simp [hv, lastObs]
      | succ n =>
        rw [List.getElem?_cons_succ, ffillGo_get fx rest (some v) n]
        simp [hv, lastObs]
    | none =>
      cases i with
      | zero => simp [hv, lastObs]
      | succ n =>
        rw [List.getElem?_cons_succ, ffillGo_get fx rest carry n]
        simp [hv]

/-- C4 (amended): after alignment, the rate paired with the `i`-th price date
is the observation made at the latest among the first `i + 1` price dates
that carries its own exact rate observation; when no such price date exists —
in particular for price dates preceding the first rate observation, and when
every rate observation falls strictly between price dates — the aligned value
is NaN (`none`), not the most recent earlier observation. -/
theorem c4_ffill_alignment (fx : List (Date × ℚ)) (idx : List Date) (i : ℕ) :
    (reindexFfill fx idx)[i]? =
      idx[i]?.map (fun t =>
        (t, lastObs none ((idx.take (i + 1)).filterMap (fun s => seriesLoc fx s)))) :=
  ffillGo_get fx idx none i

/-- C4 (counterexample): a non-empty rate series with its single observation
on 2026-01-06, strictly between the price dates 2026-01-05 and 2026-01-07,
aligns to NaN on both price dates — the later price date 2026-01-07 does have
an earlier rate observation, yet its aligned rate is undefined. -/
theorem c4_counterexample :
    reindexFfill [(d0106, (30 : ℚ))] [d0105, d0107] = [(d0105, none), (d0107, none)] ∧
    ([(d0106, (30 : ℚ))] : List (Date × ℚ)) ≠ [] ∧
    Date.ble d0105 d0106 = true ∧ Date.ble d0106 d0107 = true := by
  refine ⟨rfl, by simp, rfl, rfl⟩

/-- C10: the snapshot override is returned exactly when the file exists,
parses, carries the field, the field converts to a number, and that number
exceeds one; in every other case the supplied default is returned. -/
theorem c10_snapshot_override (file : SnapshotFile) (dflt : ℚ) :
    (∀ s v q, file = .parsed s → s.fx_twd_per_usd = some v → jsonToFloat v = some q →
      1 < q → read_fx_fallback_from_snapshot file dflt = q) ∧
    ((¬ ∃ s v q, file = .parsed s ∧ s.fx_twd_per_usd = some v ∧ jsonToFloat v = some q ∧
        1 < q) →
      read_fx_fallback_from_snapshot file dflt = dflt) := by
  constructor
  · rintro s v q rfl hv hq h1
    rcases s with ⟨fx⟩
    have hv' : fx = some v := hv
    subst hv'
    cases v with
    | num q' =>
      obtain rfl : q' = q := Option.some.inj hq
      exact show (if 1 < q' then q' else dflt) = q' from if_pos h1
    | strNum q' =>
      obtain rfl : q' = q := Option.some.inj hq
      exact show (if 1 < q' then q' else dflt) = q' from if_pos h1
    | strBad s0 => simp [jsonToFloat] at hq
    | boolv b =>
      obtain rfl : (if b = true then (1 : ℚ) else 0) = q := Option.some.inj hq
      cases b <;> norm_num at h1
    | nullv => simp [jsonToFloat] at hq
    | comp => simp [jsonToFloat] at hq
  · intro hne
    cases file with
    | missing => rfl
    | notJson => rfl
    | parsed s =>
      rcases s with ⟨fx⟩
      rcases fx with _ | v
      · rfl
      · cases v with
        | num q =>
          by_cases h1 : 1 < q
          · exact absurd ⟨⟨some (.num q)⟩, .num q, q, rfl, rfl, rfl, h1⟩ hne
          · exact show (if 1 < q then q else dflt) = dflt from if_neg h1
        | strNum q =>
          by_cases h1 : 1 < q
          · exact absurd ⟨⟨some (.strNum q)⟩, .strNum q, q, rfl, rfl, rfl, h1⟩ hne
          · exact show (if 1 < q then q else dflt) = dflt from if_neg h1
        | strBad s0 => rfl
        | boolv b =>
          cases b with
          | false =>
            exact show (if (1 : ℚ) < 0 then (0 : ℚ) else dflt) = dflt from if_neg (by norm_num)
          | true =>
            exact show (if (1 : ℚ) < 1 then (1 : ℚ) else dflt) = dflt from if_neg (by norm_num)
        | nullv => rfl
        | comp => rfl

/-- C10 (witness): a parsed snapshot with `fx_twd_per_usd = 2` overrides the
default `5`. -/
theorem c10_snapshot_override_witness :
    read_fx_fallback_from_snapshot (.parsed ⟨some (.num 2)⟩) 5 = 2 :=
  (c10_snapshot_override (.parsed ⟨some (.num 2)⟩) 5).1 ⟨some (.num 2)⟩ (.num 2) 2 rfl rfl rfl
    (by norm_num)

set_option maxRecDepth 8000 in
/-- C2 (counterexample): in the run with contribution 10000, commission 3,
spread 0.001, rate 32 and price 400, neither `gross = 312.5 = 625/2` nor
`net_after_spread = 312.1875 = 4995/16` appears among the numeric cells of
the produced PeriodRecord: the row stores only the post-fee amount and the
share quantities, so those two intermediate values are not recorded. -/
theorem c2_counterexample :
    simulate [(d0105, some 400)] [(d0105, some 32)] true .missing "etf_normal" "digital"
        d0101 d0901 10000 "month_start" = .ok (⟨ledgerCols, [rowC2]⟩, []) ∧
    some ((625 : ℚ) / 2) ∉ rowC2.numbers ∧
    some ((4995 : ℚ) / 16) ∉ rowC2.numbers := by
  refine ⟨by with_unfolding_all rfl, of_decide_eq_false (by with_unfolding_all rfl),
    of_decide_eq_false (by with_unfolding_all rfl)⟩

set_option maxRecDepth 8000 in
/-- C2 (amended): with contribution 10000, commission 3, spread 0.001,
rate 32 and price 400, the per-period economics yield
`gross = 625/2 = 312.5`, `net_after_spread = 4995/16 = 312.1875`,
`net_after_fee = 4947/16 = 309.1875` and
`shares_this_period = 4947/6400 = 0.77296875`; the last two are recorded in
the PeriodRecord (columns `usd_after_fx_and_fee` and `shares_bought`), while
gross and net-after-spread are intermediate values only. -/
theorem c2_period_economics :
    usdGross 10000 (some 32) = some (625 / 2) ∧
    usdNetFx (some (625 / 2)) (1 / 1000) = some (4995 / 16) ∧
    usdAfterFee (some (4995 / 16)) 3 = some (4947 / 16) ∧
    sharesBought (some (4947 / 16)) 400 = some (4947 / 6400) ∧
    simulate [(d0105, some 400)] [(d0105, some 32)] true .missing "etf_normal" "digital"
        d0101 d0901 10000 "month_start" = .ok (⟨ledgerCols, [rowC2]⟩, []) ∧
    rowC2.usd_after_fx_and_fee = some (4947 / 16) ∧
    rowC2.shares_bought = some (4947 / 6400) := by
  refine ⟨?_, ?_, ?_, ?_, ?_, rfl, rfl⟩ <;> with_unfolding_all rfl

/-- C1 (counterexample): with an empty price series, `simulate` returns an
empty ledger and raises no error at all, although the commission tier, the
spread tier and the cadence are all unrecognized. -/
theorem c1_counterexample :
    simulate [] [] true .missing "bogus-commission" "bogus-spread" d0101 d0901 10000
        "bogus-cadence" = .ok (⟨ledgerCols, []⟩, [Warning.qqqMissing]) := by
  rfl

/-! Lemmas about the Date Selector. -/

/-- `groupby.head(1)` keeps a subsequence of the rows, in order. -/
theorem headPerGroup_sublist :
    ∀ (l : List Date) (seen : List (ℕ × ℕ)), List.Sublist (headPerGroup seen l) l
  | [], _ => List.Sublist.slnil
  | t :: rest, seen => by
    rw [headPerGroup]
    split
    · exact List.Sublist.cons t (headPerGroup_sublist rest seen)
    · exact List.Sublist.cons₂ t (headPerGroup_sublist rest (monthKey t :: seen))

/-- Membership form of `headPerGroup_sublist`. -/
theorem headPerGroup_subset (l : List Date) (seen : List (ℕ × ℕ)) (t : Date)
    (h : t ∈ headPerGroup seen l) : t ∈ l :=
  (headPerGroup_sublist l seen).subset h

/-- `groupby.tail(1)` keeps only rows of the input. -/
theorem tailPerGroup_subset (l : List Date) (t : Date) (h : t ∈ tailPerGroup l) : t ∈ l := by
  unfold tailPerGroup at h
  rw [List.mem_reverse] at h
  exact List.mem_reverse.mp ((headPerGroup_sublist l.reverse []).subset h)

/-- Within any single `(year, month)` group, `groupby.head(1)` keeps exactly
the first row of the group (none when the group's key was already seen). -/
theorem headPerGroup_filter (k : ℕ × ℕ) :
    ∀ (l : List Date) (seen : List (ℕ × ℕ)),
      (headPerGroup seen l).filter (fun t => decide (monthKey t = k))
        = if k ∈ seen then [] else (l.filter (fun t => decide (monthKey t = k))).take 1
  | [], seen => by
    rw [headPerGroup]
    by_cases hk : k ∈ seen <;> simp [hk]
  | t :: rest, seen => by
    rw [headPerGroup]
    by_cases hseen : monthKey t ∈ seen
    · rw [if_pos hseen, headPerGroup_filter k rest seen]
      by_cases hks : k ∈ seen
      · simp [hks]
      · have hne : ¬ monthKey t = k := fun h => hks (h ▸ hseen)
        simp [hks, List.filter_cons, hne]
    · rw [if_neg hseen]
      by_cases hk : monthKey t = k
      · subst hk
        have h1 := headPerGroup_filter (monthKey t) rest (monthKey t :: seen)
        rw [if_pos (List.mem_cons_self _ _)] at h1
        simp [List.filter_cons, h1, hseen]
      · have h1 := headPerGroup_filter k rest (monthKey t :: seen)
        have hiff : k ∈ monthKey t :: seen ↔ k ∈ seen := by
          constructor
          · intro h
            rcases List.mem_cons.mp h with h1 | h2
            · exact absurd h1.symm hk
            · exact h2
          · exact fun h => List.mem_cons_of_mem _ h
        by_cases hks : k ∈ seen
        · rw [if_pos (hiff.mpr hks)] at h1
          simp [List.filter_cons, hk, h1, hks]
        · rw [if_neg (fun h => hks (hiff.mp h))] at h1
          simp [List.filter_cons, hk, h1, hks]

/-- A one-element take is its own reverse. -/
theorem take_one_reverse {α : Type} (x : List α) : (x.take 1).reverse = x.take 1 := by
  cases x <;> simp

/-- Within any single `(year, month)` group, `groupby.tail(1)` keeps exactly
the last row of the group. -/
theorem tailPerGroup_filter (k : ℕ × ℕ) (l : List Date) :
    (tailPerGroup l).filter (fun t => decide (monthKey t = k))
      = ((l.filter (fun t => decide (monthKey t = k))).reverse).take 1 := by
  unfold tailPerGroup
  rw [List.filter_reverse, headPerGroup_filter k l.reverse [],
    if_neg (List.not_mem_nil k), List.filter_reverse, take_one_reverse]

/-- `groupby.head(1)` of ordered rows is ordered. -/
theorem headPerGroup_pairwise (l : List Date) (h : l.Pairwise Date.le) :
    (headPerGroup [] l).Pairwise Date.le :=
  List.Pairwise.sublist (headPerGroup_sublist l []) h

/-- `groupby.tail(1)` of ordered rows is ordered. -/
theorem tailPerGroup_pairwise (l : List Date) (h : l.Pairwise Date.le) :
    (tailPerGroup l).Pairwise Date.le := by
  unfold tailPerGroup
  rw [List.pairwise_reverse]
  exact List.Pairwise.sublist (headPerGroup_sublist l.reverse [])
    (List.pairwise_reverse.mpr h)

/-- C9: over an ordered set of available dates, `pick_trade_dates` restricts
to the inclusive range, groups by `(year, month)`, and returns per group the
first date under `month_start` and the last under `month_end`, with results
emitted in chronological order; an empty filtered set yields an empty
sequence, not an error; and when all filtered dates share one calendar month
the results are exactly the first and exactly the last filtered date. -/
theorem c9_date_selector (idx : List Date) (startD endD : Date)
    (hs : idx.Pairwise Date.le) :
    ∃ rs re,
      pick_trade_dates idx startD endD "month_start" = .ok rs ∧
      pick_trade_dates idx startD endD "month_end" = .ok re ∧
      (∀ t ∈ rs, t ∈ rangeFilter idx startD endD) ∧
      (∀ t ∈ re, t ∈ rangeFilter idx startD endD) ∧
      rs.Pairwise Date.le ∧ re.Pairwise Date.le ∧
      (∀ k : ℕ × ℕ,
        rs.filter (fun t => decide (monthKey t = k))
          = ((rangeFilter idx startD endD).filter (fun t => decide (monthKey t = k))).take 1) ∧
      (∀ k : ℕ × ℕ,
        re.filter (fun t => decide (monthKey t = k))
          = (((rangeFilter idx startD endD).filter
              (fun t => decide (monthKey t = k))).reverse).take 1) ∧
      (rangeFilter idx startD endD = [] → rs = [] ∧ re = []) ∧
      (∀ k : ℕ × ℕ, (∀ t ∈ rangeFilter idx startD endD, monthKey t = k) →
        rs = (rangeFilter idx startD endD).take 1 ∧
        re = ((rangeFilter idx startD endD).reverse).take 1) := by
  have hfp : (rangeFilter idx startD endD).Pairwise Date.le :=
    List.Pairwise.sublist (List.filter_sublist idx) hs
  refine ⟨headPerGroup [] (rangeFilter idx startD endD),
    tailPerGroup (rangeFilter idx startD endD), rfl, rfl,
    fun t ht => headPerGroup_subset _ _ t ht,
    fun t ht => tailPerGroup_subset _ t ht,
    headPerGroup_pairwise _ hfp, tailPerGroup_pairwise _ hfp,
    fun k => by
      rw [headPerGroup_filter k (rangeFilter idx startD endD) [],
        if_neg (List.not_mem_nil k)],
    fun k => tailPerGroup_filter k (rangeFilter idx startD endD),
    ?_, ?_⟩
  · intro hemp
    rw [hemp]
    exact ⟨rfl, rfl⟩
  · intro k hall
    have hall' : ∀ t ∈ rangeFilter idx startD endD,
        (fun t => decide (monthKey t = k)) t = true := by
      intro t ht
      simp [hall t ht]
    have h1 : (rangeFilter idx startD endD).filter (fun t => decide (monthKey t = k))
        = rangeFilter idx startD endD := List.filter_eq_self.mpr hall'
    constructor
    · have h2 : (headPerGroup [] (rangeFilter idx startD endD)).filter
          (fun t => decide (monthKey t = k))
          = headPerGroup [] (rangeFilter idx startD endD) :=
        List.filter_eq_self.mpr
          (fun t ht => hall' t (headPerGroup_subset _ _ t ht))
      have h3 := headPerGroup_filter k (rangeFilter idx startD endD) []
      rw [if_neg (List.not_mem_nil k), h1, h2] at h3
      exact h3
    · have h2 : (tailPerGroup (rangeFilter idx startD endD)).filter
          (fun t => decide (monthKey t = k))
          = tailPerGroup (rangeFilter idx startD endD) :=
        List.filter_eq_self.mpr
          (fun t ht => hall' t (tailPerGroup_subset _ t ht))
      have h3 := tailPerGroup_filter k (rangeFilter idx startD endD)
      rw [h1, h2] at h3
      exact h3

/-- C9 (witness): four trading dates across 2026-01 and 2026-02 inside the
range `[2026-01-01, 2026-12-31]`. -/
theorem c9_date_selector_witness :
    ∃ rs re,
      pick_trade_dates [d0105, d0120, d0203, d0205] d0101 d1231 "month_start" = .ok rs ∧
      pick_trade_dates [d0105, d0120, d0203, d0205] d0101 d1231 "month_end" = .ok re ∧
      (∀ t ∈ rs, t ∈ rangeFilter [d0105, d0120, d0203, d0205] d0101 d1231) ∧
      (∀ t ∈ re, t ∈ rangeFilter [d0105, d0120, d0203, d0205] d0101 d1231) ∧
      rs.Pairwise Date.le ∧ re.Pairwise Date.le ∧
      (∀ k : ℕ × ℕ,
        rs.filter (fun t => decide (monthKey t = k))
          = ((rangeFilter [d0105, d0120, d0203, d0205] d0101 d1231).filter
              (fun t => decide (monthKey t = k))).take 1) ∧
      (∀ k : ℕ × ℕ,
        re.filter (fun t => decide (monthKey t = k))
          = (((rangeFilter [d0105, d0120, d0203, d0205] d0101 d1231).filter
              (fun t => decide (monthKey t = k))).reverse).take 1) ∧
      (rangeFilter [d0105, d0120, d0203, d0205] d0101 d1231 = [] → rs = [] ∧ re = []) ∧
      (∀ k : ℕ × ℕ,
        (∀ t ∈ rangeFilter [d0105, d0120, d0203, d0205] d0101 d1231, monthKey t = k) →
        rs = (rangeFilter [d0105, d0120, d0203, d0205] d0101 d1231).take 1 ∧
        re = ((rangeFilter [d0105, d0120, d0203, d0205] d0101 d1231).reverse).take 1) :=
  c9_date_selector [d0105, d0120, d0203, d0205] d0101 d1231 (by decide)

/-! Control-flow lemmas for `simulate`. -/

/-- A usable price series comes from a non-empty download. -/
theorem qqq_nonempty_of_price (qqqRaw : List (Date × Option ℚ))
    (hq : (qqqPriceOf qqqRaw).isEmpty = false) : qqqRaw.isEmpty = false := by
  cases qqqRaw with
  | nil => simp [qqqPriceOf, dropna] at hq
  | cons a l => rfl

/-- When the price series has no usable value, `simulate` stops at one of its
two early returns: empty ledger with the fixed column set, one warning. -/
theorem simulate_qqq_empty (qqqRaw fxRaw : List (Date × Option ℚ)) (hc : Bool)
    (snap : SnapshotFile) (cm sm : String) (startD endD : Date) (m : ℚ) (tm : String)
    (h : (qqqPriceOf qqqRaw).isEmpty = true) :
    ∃ w, (w = Warning.qqqMissing ∨ w = Warning.qqqCloseEmpty) ∧
      simulate qqqRaw fxRaw hc snap cm sm startD endD m tm
        = .ok (⟨ledgerCols, []⟩, [w]) := by
  cases qqqRaw with
  | nil => exact ⟨.qqqMissing, Or.inl rfl, rfl⟩
  | cons a l =>
    refine ⟨.qqqCloseEmpty, Or.inr rfl, ?_⟩
    simp [simulate, h]

/-- When prices exist and date selection raises, `simulate` propagates the
error. -/
theorem simulate_pick_error (qqqRaw fxRaw : List (Date × Option ℚ)) (hc : Bool)
    (snap : SnapshotFile) (cm sm : String) (startD endD : Date) (m : ℚ) (tm : String)
    (err : SimError)
    (hq : (qqqPriceOf qqqRaw).isEmpty = false)
    (hp : pick_trade_dates (qqqIdxOf qqqRaw) startD endD tm = .error err) :
    simulate qqqRaw fxRaw hc snap cm sm startD endD m tm = .error err := by
  have hraw := qqq_nonempty_of_price qqqRaw hq
  simp only [simulate, hraw, hq, Bool.false_eq_true, if_false, qqqIdxOf] at *
  rw [hp]

/-- When prices exist but the trade-date selection is empty, `simulate`
returns the empty ledger with the no-trading-dates warning, without touching
the cost-model lookups. -/
theorem simulate_no_dates (qqqRaw fxRaw : List (Date × Option ℚ)) (hc : Bool)
    (snap : SnapshotFile) (cm sm : String) (startD endD : Date) (m : ℚ) (tm : String)
    (td : List Date)
    (hq : (qqqPriceOf qqqRaw).isEmpty = false)
    (hp : pick_trade_dates (qqqIdxOf qqqRaw) startD endD tm = .ok td)
    (htd : td.isEmpty = true) :
    simulate qqqRaw fxRaw hc snap cm sm startD endD m tm
      = .ok (⟨ledgerCols, []⟩, fxWarnOf fxRaw hc snap ++ [Warning.noTradeDates]) := by
  have hraw := qqq_nonempty_of_price qqqRaw hq
  simp only [simulate, hraw, hq, Bool.false_eq_true, if_false, qqqIdxOf] at *
  rw [hp]
  simp [htd]

/-- When prices and trade dates exist and the commission lookup raises,
`simulate` propagates the error. -/
theorem simulate_commission_error (qqqRaw fxRaw : List (Date × Option ℚ)) (hc : Bool)
    (snap : SnapshotFile) (cm sm : String) (startD endD : Date) (m : ℚ) (tm : String)
    (td : List Date) (err : SimError)
    (hq : (qqqPriceOf qqqRaw).isEmpty = false)
    (hp : pick_trade_dates (qqqIdxOf qqqRaw) startD endD tm = .ok td)
    (htd : td.isEmpty = false)
    (hcm : cathay_commission_usd cm = .error err) :
    simulate qqqRaw fxRaw hc snap cm sm startD endD m tm = .error err := by
  have hraw := qqq_nonempty_of_price qqqRaw hq
  simp only [simulate, hraw, hq, Bool.false_eq_true, if_false, qqqIdxOf] at *
  rw [hp]
  simp only [htd, Bool.false_eq_true, if_false]
  rw [hcm]

/-- When prices and trade dates exist, the commission lookup succeeds, and
the spread lookup raises, `simulate` propagates the error. -/
theorem simulate_spread_error (qqqRaw fxRaw : List (Date × Option ℚ)) (hc : Bool)
    (snap : SnapshotFile) (cm sm : String) (startD endD : Date) (m : ℚ) (tm : String)
    (td : List Date) (commission : ℚ) (err : SimError)
    (hq : (qqqPriceOf qqqRaw).isEmpty = false)
    (hp : pick_trade_dates (qqqIdxOf qqqRaw) startD endD tm = .ok td)
    (htd : td.isEmpty = false)
    (hcm : cathay_commission_usd cm = .ok commission)
    (hsm : cathay_fx_oneway_spread sm = .error err) :
    simulate qqqRaw fxRaw hc snap cm sm startD endD m tm = .error err := by
  have hraw := qqq_nonempty_of_price qqqRaw hq
  simp only [simulate, hraw, hq, Bool.false_eq_true, if_false, qqqIdxOf] at *
  rw [hp]
  simp only [htd, Bool.false_eq_true, if_false]
  rw [hcm, hsm]

/-- The main path of `simulate`: prices, trade dates and both cost lookups
succeed, and the result is the per-period loop's ledger and warnings behind
the rate-branch warning. -/
theorem simulate_unfold_main (qqqRaw fxRaw : List (Date × Option ℚ)) (hc : Bool)
    (snap : SnapshotFile) (cm sm : String) (startD endD : Date) (m : ℚ) (tm : String)
    (td : List Date) (commission fx_spread : ℚ)
    (hq : (qqqPriceOf qqqRaw).isEmpty = false)
    (hp : pick_trade_dates (qqqIdxOf qqqRaw) startD endD tm = .ok td)
    (htd : td.isEmpty = false)
    (hcm : cathay_commission_usd cm = .ok commission)
    (hsm : cathay_fx_oneway_spread sm = .ok fx_spread) :
    simulate qqqRaw fxRaw hc snap cm sm startD endD m tm
      = .ok (⟨ledgerCols,
          (simLoop snap m commission fx_spread
            (fxRateOf fxRaw hc snap (qqqIdxOf qqqRaw)) (qqqPriceOf qqqRaw) td (some 0)).1⟩,
        fxWarnOf fxRaw hc snap
          ++ (simLoop snap m commission fx_spread
            (fxRateOf fxRaw hc snap (qqqIdxOf qqqRaw)) (qqqPriceOf qqqRaw) td
            (some 0)).2) := by
  have hraw := qqq_nonempty_of_price qqqRaw hq
  simp only [simulate, hraw, hq, Bool.false_eq_true, if_false, qqqIdxOf] at *
  rw [hp]
  simp only [htd, Bool.false_eq_true, if_false]
  rw [hcm, hsm]

/-- An unrecognized cadence makes `pick_trade_dates` raise. -/
theorem pick_trade_dates_invalid (idx : List Date) (startD endD : Date) (tm : String)
    (h1 : tm ≠ "month_start") (h2 : tm ≠ "month_end") :
    pick_trade_dates idx startD endD tm = .error .invalidTradeMode := by
  simp [pick_trade_dates, h1, h2]

/-- An unrecognized commission tier makes `cathay_commission_usd` raise. -/
theorem cathay_commission_usd_invalid (cm : String)
    (h1 : cm ≠ "etf_normal") (h2 : cm ≠ "dca") :
    cathay_commission_usd cm = .error .invalidCommissionMode := by
  simp [cathay_commission_usd, h1, h2]

/-- An unrecognized spread tier makes `cathay_fx_oneway_spread` raise. -/
theorem cathay_fx_oneway_spread_invalid (sm : String)
    (h1 : sm ≠ "digital") (h2 : sm ≠ "spot") :
    cathay_fx_oneway_spread sm = .error .invalidFxSpreadMode := by
  simp [cathay_fx_oneway_spread, h1, h2]

/-- C3: whenever the price series is empty or contains no usable values,
`simulate` raises nothing and returns the empty ledger with the full fixed
column set together with exactly one warning — one of the two messages
naming the missing QQQ price feed — and nothing else is produced. -/
theorem c3_missing_price_feed (qqqRaw fxRaw : List (Date × Option ℚ)) (hc : Bool)
    (snap : SnapshotFile) (cm sm : String) (startD endD : Date) (m : ℚ) (tm : String)
    (h : (qqqPriceOf qqqRaw).isEmpty = true) :
    ∃ w, (w = Warning.qqqMissing ∨ w = Warning.qqqCloseEmpty) ∧
      simulate qqqRaw fxRaw hc snap cm sm startD endD m tm
        = .ok (⟨ledgerCols, []⟩, [w]) :=
  simulate_qqq_empty qqqRaw fxRaw hc snap cm sm startD endD m tm h

/-- C3 (witness): a price frame whose only `Close` cell is NaN — the
downloaded frame is non-empty but carries no usable value. -/
theorem c3_missing_price_feed_witness :
    ∃ w, (w = Warning.qqqMissing ∨ w = Warning.qqqCloseEmpty) ∧
      simulate [(d0105, none)] [] true .missing "etf_normal" "digital" d0101 d0901 10000
        "month_start" = .ok (⟨ledgerCols, []⟩, [w]) :=
  c3_missing_price_feed [(d0105, none)] [] true .missing "etf_normal" "digital" d0101 d0901
    10000 "month_start" rfl

/-- C1 (amended): configuration validation is lazy, not at call time.  An
unrecognized cadence raises only when the price series has usable values
(after the price and rate data were already fetched and aligned);
unrecognized commission or spread tiers raise only when additionally the
selected trade-date set is non-empty (commission checked before spread);
and when the price series is empty, or the trade-date set is empty under a
recognized cadence, `simulate` returns an empty ledger without raising, no
matter how invalid the three enumerated options are. -/
theorem c1_lazy_config_validation (qqqRaw fxRaw : List (Date × Option ℚ)) (hc : Bool)
    (snap : SnapshotFile) (cm sm : String) (startD endD : Date) (m : ℚ) (tm : String) :
    ((qqqPriceOf qqqRaw).isEmpty = true →
      ∃ w, simulate qqqRaw fxRaw hc snap cm sm startD endD m tm
        = .ok (⟨ledgerCols, []⟩, [w])) ∧
    ((qqqPriceOf qqqRaw).isEmpty = false → tm ≠ "month_start" → tm ≠ "month_end" →
      simulate qqqRaw fxRaw hc snap cm sm startD endD m tm
        = .error .invalidTradeMode) ∧
    (∀ td, (qqqPriceOf qqqRaw).isEmpty = false →
      pick_trade_dates (qqqIdxOf qqqRaw) startD endD tm = .ok td → td.isEmpty = true →
      simulate qqqRaw fxRaw hc snap cm sm startD endD m tm
        = .ok (⟨ledgerCols, []⟩, fxWarnOf fxRaw hc snap ++ [Warning.noTradeDates])) ∧
    (∀ td, (qqqPriceOf qqqRaw).isEmpty = false →
      pick_trade_dates (qqqIdxOf qqqRaw) startD endD tm = .ok td → td.isEmpty = false →
      cm ≠ "etf_normal" → cm ≠ "dca" →
      simulate qqqRaw fxRaw hc snap cm sm startD endD m tm
        = .error .invalidCommissionMode) ∧
    (∀ td commission, (qqqPriceOf qqqRaw).isEmpty = false →
      pick_trade_dates (qqqIdxOf qqqRaw) startD endD tm = .ok td → td.isEmpty = false →
      cathay_commission_usd cm = .ok commission → sm ≠ "digital" → sm ≠ "spot" →
      simulate qqqRaw fxRaw hc snap cm sm startD endD m tm
        = .error .invalidFxSpreadMode) := by
  refine ⟨?_, ?_, ?_, ?_, ?_⟩
  · intro h
    obtain ⟨w, _, hw⟩ := simulate_qqq_empty qqqRaw fxRaw hc snap cm sm startD endD m tm h
    exact ⟨w, hw⟩
  · intro hq h1 h2
    exact simulate_pick_error qqqRaw fxRaw hc snap cm sm startD endD m tm _ hq
      (pick_trade_dates_invalid _ startD endD tm h1 h2)
  · intro td hq hp htd
    exact simulate_no_dates qqqRaw fxRaw hc snap cm sm startD endD m tm td hq hp htd
  · intro td hq hp htd h1 h2
    exact simulate_commission_error qqqRaw fxRaw hc snap cm sm startD endD m tm td _ hq hp
      htd (cathay_commission_usd_invalid cm h1 h2)
  · intro td commission hq hp htd hcm h1 h2
    exact simulate_spread_error qqqRaw fxRaw hc snap cm sm startD endD m tm td commission _
      hq hp htd hcm (cathay_fx_oneway_spread_invalid sm h1 h2)

/-- C1 (witness): a single usable price with an unrecognized cadence makes
`simulate` raise the cadence error; instantiates the second clause. -/
theorem c1_lazy_config_validation_witness :
    simulate [(d0105, some 400)] [] true .missing "etf_normal" "digital" d0101 d0901 10000
      "weekly" = .error .invalidTradeMode :=
  (c1_lazy_config_validation [(d0105, some 400)] [] true .missing "etf_normal" "digital"
    d0101 d0901 10000 "weekly").2.1 rfl (by decide) (by decide)

/-! Lemmas about the per-period loop. -/

/-- The loop emits exactly one row per trade date, in order. -/
theorem simLoop_rows_dates (snap : SnapshotFile) (monthly commission fx_spread : ℚ)
    (fx_rate : List (Date × Fl)) (qqq_price : List (Date × ℚ)) :
    ∀ (dates : List Date) (total : Fl),
      ((simLoop snap monthly commission fx_spread fx_rate qqq_price dates total).1).map
        (fun r => r.date) = dates
  | [], _ => rfl
  | t :: rest, total => by
    simp only [simLoop, List.map_cons, List.cons.injEq]
    exact ⟨by simp [mkRow],
      simLoop_rows_dates snap monthly commission fx_spread fx_rate qqq_price rest _⟩

/-- Every row the loop emits records the loop's constants, the price looked
up at its own date, the sanity-checked rate (the fallback exactly when the
raw aligned rate reads below one, the raw aligned rate otherwise), and the
derived per-period economics computed from those recorded cells. -/
theorem simLoop_row_shape (snap : SnapshotFile) (monthly commission fx_spread : ℚ)
    (fx_rate : List (Date × Fl)) (qqq_price : List (Date × ℚ)) :
    ∀ (dates : List Date) (total : Fl) (r : PeriodRecord),
      r ∈ (simLoop snap monthly commission fx_spread fx_rate qqq_price dates total).1 →
      r.twd_contribution = monthly ∧ r.fx_oneway_spread = fx_spread ∧
      r.commission_usd = commission ∧
      r.qqq_price_usd = (seriesLoc qqq_price r.date).getD 0 ∧
      (fltB ((seriesLoc fx_rate r.date).getD none) (some 1) = true →
        r.fx_twd_per_usd_mid
          = some (read_fx_fallback_from_snapshot snap FX_FALLBACK_TWD_PER_USD)) ∧
      (fltB ((seriesLoc fx_rate r.date).getD none) (some 1) = false →
        r.fx_twd_per_usd_mid = (seriesLoc fx_rate r.date).getD none) ∧
      r.usd_after_fx_and_fee
        = usdAfterFee (usdNetFx (usdGross monthly r.fx_twd_per_usd_mid) fx_spread)
            commission ∧
      r.shares_bought = sharesBought r.usd_after_fx_and_fee r.qqq_price_usd ∧
      r.portfolio_value_twd
        = fmul (fmul r.total_shares (some r.qqq_price_usd)) r.fx_twd_per_usd_mid
  | [], total, r, hr => by simp [simLoop] at hr
  | t :: rest, total, r, hr => by
    simp only [simLoop] at hr
    rcases List.mem_cons.mp hr with h1 | h2
    · subst h1
      by_cases himp : fltB ((seriesLoc fx_rate t).getD none) (some 1) = true
      · simp [mkRow, himp]
      · simp [mkRow, himp]
    · exact simLoop_row_shape snap monthly commission fx_spread fx_rate qqq_price rest _
        r h2

/-- The loop appends exactly one implausible-rate warning per trade date
whose raw aligned rate reads below one. -/
theorem simLoop_warn_rate_count (snap : SnapshotFile) (monthly commission fx_spread : ℚ)
    (fx_rate : List (Date × Fl)) (qqq_price : List (Date × ℚ)) :
    ∀ (dates : List Date) (total : Fl),
      ((simLoop snap monthly commission fx_spread fx_rate qqq_price dates total).2).countP
          isRateWarn
        = dates.countP (fun t => fltB ((seriesLoc fx_rate t).getD none) (some 1))
  | [], _ => rfl
  | t :: rest, total => by
    simp only [simLoop, List.countP_append, List.countP_cons]
    rw [simLoop_warn_rate_count snap monthly commission fx_spread fx_rate qqq_price rest _]
    by_cases himp : fltB ((seriesLoc fx_rate t).getD none) (some 1) = true
    · simp [himp, isRateWarn, List.countP_cons]
      omega
    · simp [himp]

/-- The loop never appends the fallback-mentioning warning. -/
theorem simLoop_warn_fallback_none (snap : SnapshotFile)
    (monthly commission fx_spread : ℚ)
    (fx_rate : List (Date × Fl)) (qqq_price : List (Date × ℚ)) :
    ∀ (dates : List Date) (total : Fl),
      ((simLoop snap monthly commission fx_spread fx_rate qqq_price dates
        total).2).countP isFallbackWarn = 0
  | [], _ => rfl
  | t :: rest, total => by
    simp only [simLoop, List.countP_append]
    rw [simLoop_warn_fallback_none snap monthly commission fx_spread fx_rate qqq_price
      rest _]
    by_cases himp : fltB ((seriesLoc fx_rate t).getD none) (some 1) = true
    · simp [himp, isFallbackWarn, List.countP_cons]
    · simp [himp]

/-- Loop invariant behind the monotonicity claim: when every trade date has
an actual (non-NaN) aligned rate and all prices are positive, the cumulative
`total_shares` column starting from a non-negative floor passes the
non-negative non-decreasing check. -/
theorem simLoop_monotone (snap : SnapshotFile) (monthly commission fx_spread : ℚ)
    (fx_rate : List (Date × Fl)) (qqq_price : List (Date × ℚ))
    (hp : ∀ p ∈ qqq_price, 0 < p.2) :
    ∀ (dates : List Date) (t0 : ℚ), 0 ≤ t0 →
      (∀ t ∈ dates, ∃ rv, seriesLoc fx_rate t = some (some rv)) →
      totalsMonoFrom t0
        (simLoop snap monthly commission fx_spread fx_rate qqq_price dates
          (some t0)).1 = true := by
  intro dates
  induction dates with
  | nil => intro t0 _ _; rfl
  | cons t rest ih =>
    intro t0 ht0 hdef
    obtain ⟨rv, hrv⟩ := hdef t (List.mem_cons_self t rest)
    have hdef' : ∀ s ∈ rest, ∃ rv, seriesLoc fx_rate s = some (some rv) :=
      fun s hs => hdef s (List.mem_cons_of_mem _ hs)
    have hprice : 0 ≤ (seriesLoc qqq_price t).getD 0 := by
      cases hq : seriesLoc qqq_price t with
      | none => simp
      | some v =>
        have hv := hp (t, v) (seriesLoc_mem t v qqq_price hq)
        simpa using le_of_lt hv
    obtain ⟨rr, hrr⟩ : ∃ rr,
        (if fltB ((seriesLoc fx_rate t).getD none) (some 1) then
          some (read_fx_fallback_from_snapshot snap FX_FALLBACK_TWD_PER_USD)
        else (seriesLoc fx_rate t).getD none) = some rr := by
      rw [hrv]
      by_cases himp : fltB (some rv) (some 1) = true
      · exact ⟨read_fx_fallback_from_snapshot snap FX_FALLBACK_TWD_PER_USD,
          by simp [himp]⟩
      · exact ⟨rv, by simp [himp]⟩
    obtain ⟨s, hs, htots⟩ : ∃ s, 0 ≤ s ∧
        (mkRow snap monthly commission fx_spread fx_rate qqq_price (some t0)
          t).total_shares = some (t0 + s) := by
      refine ⟨max (monthly / rr * (1 - fx_spread) - commission) 0
          / ((seriesLoc qqq_price t).getD 0),
        div_nonneg (le_max_right _ _) hprice, ?_⟩
      simp only [mkRow]
      rw [hrr]
      simp [usdGross, usdNetFx, usdAfterFee, sharesBought, fdiv, fmul, fsub, fmax0, fadd]
    simp only [simLoop, totalsMonoFrom, htots]
    rw [Bool.and_eq_true]
    exact ⟨decide_eq_true (le_add_of_nonneg_right hs),
      ih (t0 + s) (add_nonneg ht0 hs) hdef'⟩

/-- The rate-branch warning list never contains the implausible-rate
warning. -/
theorem fxWarnOf_rate_count (fxRaw : List (Date × Option ℚ)) (hc : Bool)
    (snap : SnapshotFile) : (fxWarnOf fxRaw hc snap).countP isRateWarn = 0 := by
  unfold fxWarnOf
  split <;> simp [isRateWarn]

/-- With no rate observation at all, the rate branch emits exactly the
fallback warning carrying the fallback value. -/
theorem fxWarnOf_empty (fxRaw : List (Date × Option ℚ)) (hc : Bool)
    (snap : SnapshotFile) (hfx : fxMidOf fxRaw hc = []) :
    fxWarnOf fxRaw hc snap
      = [Warning.fxFallbackUsed
          (read_fx_fallback_from_snapshot snap FX_FALLBACK_TWD_PER_USD)] := by
  unfold fxWarnOf
  rw [hfx]
  simp

/-- With no rate observation at all, the aligned rate series is the constant
fallback series over the price index. -/
theorem fxRateOf_empty (fxRaw : List (Date × Option ℚ)) (hc : Bool)
    (snap : SnapshotFile) (idx : List Date) (hfx : fxMidOf fxRaw hc = []) :
    fxRateOf fxRaw hc snap idx
      = idx.map (fun t =>
          (t, some (read_fx_fallback_from_snapshot snap FX_FALLBACK_TWD_PER_USD))) := by
  unfold fxRateOf
  rw [hfx]
  simp

/-- Selected trade dates are price-index dates. -/
theorem pick_trade_dates_subset (idx : List Date) (startD endD : Date) (tm : String)
    (td : List Date) (h : pick_trade_dates idx startD endD tm = .ok td) :
    ∀ t ∈ td, t ∈ idx := by
  unfold pick_trade_dates at h
  split at h
  · obtain rfl := Except.ok.inj h
    intro t ht
    exact List.mem_of_mem_filter (headPerGroup_subset _ _ t ht)
  · split at h
    · obtain rfl := Except.ok.inj h
      intro t ht
      exact List.mem_of_mem_filter (tailPerGroup_subset _ t ht)
    · exact Except.noConfusion h

/-- A Bool that is not true is false. -/
theorem eq_false_of_not_true {b : Bool} (h : ¬ b = true) : b = false := by
  cases b
  · rfl
  · exact absurd rfl h

/-- C5: a period whose raw aligned rate reads below one does not abort the
run — its row records the snapshot fallback rate instead, one
implausible-rate warning is appended per such period, and the recorded rate
(substituted or observed) is the one feeding the gross conversion and the
portfolio valuation, while rows whose raw rate does not read below one keep
their own aligned rate. -/
theorem c5_implausible_rate (qqqRaw fxRaw : List (Date × Option ℚ)) (hc : Bool)
    (snap : SnapshotFile) (cm sm : String) (startD endD : Date) (m : ℚ) (tm : String)
    (td : List Date) (commission fx_spread : ℚ)
    (hq : (qqqPriceOf qqqRaw).isEmpty = false)
    (hpick : pick_trade_dates (qqqIdxOf qqqRaw) startD endD tm = .ok td)
    (htd : td.isEmpty = false)
    (hcm : cathay_commission_usd cm = .ok commission)
    (hsm : cathay_fx_oneway_spread sm = .ok fx_spread) :
    ∃ L ws, simulate qqqRaw fxRaw hc snap cm sm startD endD m tm = .ok (L, ws) ∧
      L.rows.map (fun r => r.date) = td ∧
      (∀ r ∈ L.rows,
        (fltB ((seriesLoc (fxRateOf fxRaw hc snap (qqqIdxOf qqqRaw)) r.date).getD none)
            (some 1) = true →
          r.fx_twd_per_usd_mid
            = some (read_fx_fallback_from_snapshot snap FX_FALLBACK_TWD_PER_USD)) ∧
        (fltB ((seriesLoc (fxRateOf fxRaw hc snap (qqqIdxOf qqqRaw)) r.date).getD none)
            (some 1) = false →
          r.fx_twd_per_usd_mid
            = (seriesLoc (fxRateOf fxRaw hc snap (qqqIdxOf qqqRaw)) r.date).getD none) ∧
        r.usd_after_fx_and_fee
          = usdAfterFee (usdNetFx (usdGross m r.fx_twd_per_usd_mid) fx_spread)
              commission ∧
        r.portfolio_value_twd
          = fmul (fmul r.total_shares (some r.qqq_price_usd)) r.fx_twd_per_usd_mid) ∧
      ws.countP isRateWarn
        = td.countP (fun t =>
            fltB ((seriesLoc (fxRateOf fxRaw hc snap (qqqIdxOf qqqRaw)) t).getD none)
              (some 1)) := by
  refine ⟨_, _,
    simulate_unfold_main qqqRaw fxRaw hc snap cm sm startD endD m tm td commission
      fx_spread hq hpick htd hcm hsm, ?_, ?_, ?_⟩
  · exact simLoop_rows_dates snap m commission fx_spread _ _ td (some 0)
  · intro r hr
    obtain ⟨h1, h2, h3, h4, h5, h6, h7, h8, h9⟩ :=
      simLoop_row_shape snap m commission fx_spread
        (fxRateOf fxRaw hc snap (qqqIdxOf qqqRaw)) (qqqPriceOf qqqRaw) td (some 0) r hr
    exact ⟨h5, h6, h7, h9⟩
  · rw [List.countP_append, fxWarnOf_rate_count fxRaw hc snap,
      simLoop_warn_rate_count snap m commission fx_spread _ _ td (some 0),
      Nat.zero_add]

/-- C5 (witness): a 0.03 rate observation on the January purchase date with
fallback 32, and a plausible 32 observation on the February purchase date. -/
theorem c5_implausible_rate_witness :
    ∃ L ws, simulate [(d0105, some 400), (d0205, some 410)]
        [(d0105, some (3 / 100)), (d0205, some 32)] true .missing "etf_normal" "digital"
        d0101 d0901 10000 "month_start" = .ok (L, ws) ∧
      L.rows.map (fun r => r.date) = [d0105, d0205] ∧
      (∀ r ∈ L.rows,
        (fltB ((seriesLoc (fxRateOf [(d0105, some (3 / 100)), (d0205, some 32)] true
              .missing (qqqIdxOf [(d0105, some 400), (d0205, some 410)])) r.date).getD
            none) (some 1) = true →
          r.fx_twd_per_usd_mid
            = some (read_fx_fallback_from_snapshot .missing FX_FALLBACK_TWD_PER_USD)) ∧
        (fltB ((seriesLoc (fxRateOf [(d0105, some (3 / 100)), (d0205, some 32)] true
              .missing (qqqIdxOf [(d0105, some 400), (d0205, some 410)])) r.date).getD
            none) (some 1) = false →
          r.fx_twd_per_usd_mid
            = (seriesLoc (fxRateOf [(d0105, some (3 / 100)), (d0205, some 32)] true
                .missing (qqqIdxOf [(d0105, some 400), (d0205, some 410)])) r.date).getD
              none) ∧
        r.usd_after_fx_and_fee
          = usdAfterFee (usdNetFx (usdGross 10000 r.fx_twd_per_usd_mid) (1 / 1000)) 3 ∧
        r.portfolio_value_twd
          = fmul (fmul r.total_shares (some r.qqq_price_usd)) r.fx_twd_per_usd_mid) ∧
      ws.countP isRateWarn
        = [d0105, d0205].countP (fun t =>
            fltB ((seriesLoc (fxRateOf [(d0105, some (3 / 100)), (d0205, some 32)] true
              .missing (qqqIdxOf [(d0105, some 400), (d0205, some 410)])) t).getD none)
              (some 1)) :=
  c5_implausible_rate [(d0105, some 400), (d0205, some 410)]
    [(d0105, some (3 / 100)), (d0205, some 32)] true .missing "etf_normal" "digital"
    d0101 d0901 10000 "month_start" [d0105, d0205] 3 (1 / 1000) rfl rfl rfl rfl rfl

/-- C6: with usable prices and an entirely empty rate series, the constant
fallback rate is substituted over the whole price index, exactly one warning
mentioning the fallback value is emitted, and every produced PeriodRecord
records exactly that fallback constant as its exchange rate. -/
theorem c6_rate_fallback (qqqRaw fxRaw : List (Date × Option ℚ)) (hc : Bool)
    (snap : SnapshotFile) (cm sm : String) (startD endD : Date) (m : ℚ) (tm : String)
    (td : List Date) (commission fx_spread : ℚ)
    (hq : (qqqPriceOf qqqRaw).isEmpty = false)
    (hfx : fxMidOf fxRaw hc = [])
    (hpick : pick_trade_dates (qqqIdxOf qqqRaw) startD endD tm = .ok td)
    (hcm : cathay_commission_usd cm = .ok commission)
    (hsm : cathay_fx_oneway_spread sm = .ok fx_spread) :
    ∃ L ws, simulate qqqRaw fxRaw hc snap cm sm startD endD m tm = .ok (L, ws) ∧
      ws.countP isFallbackWarn = 1 ∧
      Warning.fxFallbackUsed
        (read_fx_fallback_from_snapshot snap FX_FALLBACK_TWD_PER_USD) ∈ ws ∧
      fxRateOf fxRaw hc snap (qqqIdxOf qqqRaw)
        = (qqqIdxOf qqqRaw).map (fun t =>
            (t, some (read_fx_fallback_from_snapshot snap FX_FALLBACK_TWD_PER_USD))) ∧
      (∀ r ∈ L.rows, r.fx_twd_per_usd_mid
        = some (read_fx_fallback_from_snapshot snap FX_FALLBACK_TWD_PER_USD)) := by
  have hwarn := fxWarnOf_empty fxRaw hc snap hfx
  by_cases htd : td.isEmpty = true
  · refine ⟨⟨ledgerCols, []⟩, _,
      simulate_no_dates qqqRaw fxRaw hc snap cm sm startD endD m tm td hq hpick htd,
      ?_, ?_, fxRateOf_empty fxRaw hc snap _ hfx, ?_⟩
    · rw [hwarn]
      simp [isFallbackWarn]
    · rw [hwarn]
      exact List.mem_append_left _ (List.mem_singleton.mpr rfl)
    · intro r hr
      simp at hr
  · have htd' : td.isEmpty = false := eq_false_of_not_true htd
    refine ⟨_, _,
      simulate_unfold_main qqqRaw fxRaw hc snap cm sm startD endD m tm td commission
        fx_spread hq hpick htd' hcm hsm, ?_, ?_,
      fxRateOf_empty fxRaw hc snap _ hfx, ?_⟩
    · rw [List.countP_append, hwarn,
        simLoop_warn_fallback_none snap m commission fx_spread _ _ td (some 0)]
      simp [isFallbackWarn]
    · rw [hwarn]
      exact List.mem_append_left _ (List.mem_singleton.mpr rfl)
    · intro r hr
      obtain ⟨h1, h2, h3, h4, h5, h6, h7, h8, h9⟩ :=
        simLoop_row_shape snap m commission fx_spread
          (fxRateOf fxRaw hc snap (qqqIdxOf qqqRaw)) (qqqPriceOf qqqRaw) td (some 0) r hr
      have hdate : r.date ∈ td := by
        rw [← simLoop_rows_dates snap m commission fx_spread
          (fxRateOf fxRaw hc snap (qqqIdxOf qqqRaw)) (qqqPriceOf qqqRaw) td (some 0)]
        exact List.mem_map_of_mem _ hr
      have hidx : r.date ∈ qqqIdxOf qqqRaw :=
        pick_trade_dates_subset _ startD endD tm td hpick r.date hdate
      have hloc : seriesLoc (fxRateOf fxRaw hc snap (qqqIdxOf qqqRaw)) r.date
          = some (some (read_fx_fallback_from_snapshot snap FX_FALLBACK_TWD_PER_USD)) := by
        rw [fxRateOf_empty fxRaw hc snap _ hfx]
        exact seriesLoc_map_const _ _ _ hidx
      have hfb1 : (1 : ℚ) < read_fx_fallback_from_snapshot snap FX_FALLBACK_TWD_PER_USD :=
        read_fx_fallback_gt_one snap _ (by norm_num [FX_FALLBACK_TWD_PER_USD])
      have hflt : fltB ((seriesLoc (fxRateOf fxRaw hc snap (qqqIdxOf qqqRaw))
          r.date).getD none) (some 1) = false := by
        rw [hloc]
        simp only [Option.getD_some, fltB]
        exact decide_eq_false (not_lt.mpr (le_of_lt hfb1))
      rw [h6 hflt, hloc]
      rfl

/-- C6 (witness): three January prices, an empty rate frame, snapshot file
absent, so the fallback is the hard-coded 32. -/
theorem c6_rate_fallback_witness :
    ∃ L ws, simulate [(d0105, some 400), (d0106, some 402), (d0107, some 404)] [] true
        .missing "etf_normal" "digital" d0101 d0901 10000 "month_start" = .ok (L, ws) ∧
      ws.countP isFallbackWarn = 1 ∧
      Warning.fxFallbackUsed
        (read_fx_fallback_from_snapshot .missing FX_FALLBACK_TWD_PER_USD) ∈ ws ∧
      fxRateOf [] true .missing
          (qqqIdxOf [(d0105, some 400), (d0106, some 402), (d0107, some 404)])
        = (qqqIdxOf [(d0105, some 400), (d0106, some 402), (d0107, some 404)]).map
            (fun t =>
              (t, some (read_fx_fallback_from_snapshot .missing
                FX_FALLBACK_TWD_PER_USD))) ∧
      (∀ r ∈ L.rows, r.fx_twd_per_usd_mid
        = some (read_fx_fallback_from_snapshot .missing FX_FALLBACK_TWD_PER_USD)) :=
  c6_rate_fallback [(d0105, some 400), (d0106, some 402), (d0107, some 404)] [] true
    .missing "etf_normal" "digital" d0101 d0901 10000 "month_start" [d0105] 3 (1 / 1000)
    rfl rfl rfl rfl rfl

set_option maxRecDepth 8000 in
/-- C7 (counterexample): with a price on 2026-01-05 but the only rate
observation on 2026-01-06, the aligned rate of the sole purchase date is NaN,
so its cumulative `total_shares` cell is NaN and the non-negative
non-decreasing check on the non-empty ledger fails. -/
theorem c7_counterexample :
    (simulate [(d0105, some 400)] [(d0106, some 30)] true .missing "etf_normal" "digital"
        d0101 d0901 10000 "month_start").map (fun p => totalsMonotone p.1.rows)
      = .ok false ∧
    (simulate [(d0105, some 400)] [(d0106, some 30)] true .missing "etf_normal" "digital"
        d0101 d0901 10000 "month_start").map (fun p => p.1.rows.length) = .ok 1 := by
  constructor
  · with_unfolding_all rfl
  · with_unfolding_all rfl

/-- C7 (amended): whenever every selected trade date carries an actual
(non-NaN) aligned rate and every usable price is positive, a successful run's
ledger has a `total_shares` column that is non-negative and non-decreasing
row by row; the restriction excludes exactly the runs in which a NaN rate —
a price date with no preceding aligned observation — poisons the
accumulator. -/
theorem c7_totals_monotone (qqqRaw fxRaw : List (Date × Option ℚ)) (hc : Bool)
    (snap : SnapshotFile) (cm sm : String) (startD endD : Date) (m : ℚ) (tm : String)
    (td : List Date) (L : Ledger) (ws : List Warning)
    (hp : ∀ p ∈ qqqPriceOf qqqRaw, 0 < p.2)
    (hpick : pick_trade_dates (qqqIdxOf qqqRaw) startD endD tm = .ok td)
    (hdef : ∀ t ∈ td, ∃ rv,
      seriesLoc (fxRateOf fxRaw hc snap (qqqIdxOf qqqRaw)) t = some (some rv))
    (hrun : simulate qqqRaw fxRaw hc snap cm sm startD endD m tm = .ok (L, ws)) :
    totalsMonotone L.rows = true := by
  by_cases hq : (qqqPriceOf qqqRaw).isEmpty = true
  · obtain ⟨w, _, hw⟩ :=
      simulate_qqq_empty qqqRaw fxRaw hc snap cm sm startD endD m tm hq
    rw [hw] at hrun
    have hL : L = ⟨ledgerCols, []⟩ :=
      (congrArg Prod.fst (Except.ok.inj hrun)).symm
    rw [hL]
    rfl
  · have hq' : (qqqPriceOf qqqRaw).isEmpty = false := eq_false_of_not_true hq
    by_cases htd : td.isEmpty = true
    · rw [simulate_no_dates qqqRaw fxRaw hc snap cm sm startD endD m tm td hq' hpick htd]
        at hrun
      have hL : L = ⟨ledgerCols, []⟩ :=
        (congrArg Prod.fst (Except.ok.inj hrun)).symm
      rw [hL]
      rfl
    · have htd' : td.isEmpty = false := eq_false_of_not_true htd
      cases hcm : cathay_commission_usd cm with
      | error e =>
        rw [simulate_commission_error qqqRaw fxRaw hc snap cm sm startD endD m tm td e
          hq' hpick htd' hcm] at hrun
        exact Except.noConfusion hrun
      | ok commission =>
        cases hsm : cathay_fx_oneway_spread sm with
        | error e =>
          rw [simulate_spread_error qqqRaw fxRaw hc snap cm sm startD endD m tm td
            commission e hq' hpick htd' hcm hsm] at hrun
          exact Except.noConfusion hrun
        | ok fx_spread =>
          rw [simulate_unfold_main qqqRaw fxRaw hc snap cm sm startD endD m tm td
            commission fx_spread hq' hpick htd' hcm hsm] at hrun
          have hL : L = ⟨ledgerCols,
              (simLoop snap m commission fx_spread
                (fxRateOf fxRaw hc snap (qqqIdxOf qqqRaw)) (qqqPriceOf qqqRaw) td
                (some 0)).1⟩ :=
            (congrArg Prod.fst (Except.ok.inj hrun)).symm
          rw [hL]
          exact simLoop_monotone snap m commission fx_spread
            (fxRateOf fxRaw hc snap (qqqIdxOf qqqRaw)) (qqqPriceOf qqqRaw) hp td 0
            le_rfl hdef

set_option maxRecDepth 8000 in
/-- C7 (witness): a one-period run with rate 40 and price 500; its single
cumulative share count passes the non-negative non-decreasing check. -/
theorem c7_totals_monotone_witness : totalsMonotone [rowC7w] = true :=
  c7_totals_monotone [(d0105, some 500)] [(d0105, some 40)] true .missing "etf_normal"
    "digital" d0101 d0901 10000 "month_start" [d0105] ⟨ledgerCols, [rowC7w]⟩ []
    (by intro p hp; rcases List.mem_singleton.mp hp with rfl; norm_num)
    rfl
    (by
      intro t ht
      rcases List.mem_singleton.mp ht with rfl
      exact ⟨40, rfl⟩)
    (by with_unfolding_all rfl)

/-- C8: in any successful run, every row's recorded net amount equals
`max(net_after_spread - commission, 0.0)` reconstructed from the row's own
recorded contribution, rate, spread and commission, and that recorded net
amount never compares below zero — even when the flat commission exceeds the
whole spread-adjusted converted amount. -/
theorem c8_net_never_negative (qqqRaw fxRaw : List (Date × Option ℚ)) (hc : Bool)
    (snap : SnapshotFile) (cm sm : String) (startD endD : Date) (m : ℚ) (tm : String)
    (L : Ledger) (ws : List Warning)
    (hrun : simulate qqqRaw fxRaw hc snap cm sm startD endD m tm = .ok (L, ws)) :
    ∀ r ∈ L.rows,
      r.usd_after_fx_and_fee
        = fmax0 (fsub (usdNetFx (usdGross r.twd_contribution r.fx_twd_per_usd_mid)
            r.fx_oneway_spread) (some r.commission_usd)) ∧
      fltB r.usd_after_fx_and_fee (some 0) = false := by
  by_cases hq : (qqqPriceOf qqqRaw).isEmpty = true
  · obtain ⟨w, _, hw⟩ :=
      simulate_qqq_empty qqqRaw fxRaw hc snap cm sm startD endD m tm hq
    rw [hw] at hrun
    have hL : L = ⟨ledgerCols, []⟩ :=
      (congrArg Prod.fst (Except.ok.inj hrun)).symm
    rw [hL]
    intro r hr
    simp at hr
  · have hq' : (qqqPriceOf qqqRaw).isEmpty = false := eq_false_of_not_true hq
    cases hpick : pick_trade_dates (qqqIdxOf qqqRaw) startD endD tm with
    | error e =>
      rw [simulate_pick_error qqqRaw fxRaw hc snap cm sm startD endD m tm e hq' hpick]
        at hrun
      exact Except.noConfusion hrun
    | ok td =>
      by_cases htd : td.isEmpty = true
      · rw [simulate_no_dates qqqRaw fxRaw hc snap cm sm startD endD m tm td hq' hpick
          htd] at hrun
        have hL : L = ⟨ledgerCols, []⟩ :=
          (congrArg Prod.fst (Except.ok.inj hrun)).symm
        rw [hL]
        intro r hr
        simp at hr
      · have htd' : td.isEmpty = false := eq_false_of_not_true htd
        cases hcm : cathay_commission_usd cm with
        | error e =>
          rw [simulate_commission_error qqqRaw fxRaw hc snap cm sm startD endD m tm td e
            hq' hpick htd' hcm] at hrun
          exact Except.noConfusion hrun
        | ok commission =>
          cases hsm : cathay_fx_oneway_spread sm with
          | error e =>
            rw [simulate_spread_error qqqRaw fxRaw hc snap cm sm startD endD m tm td
              commission e hq' hpick htd' hcm hsm] at hrun
            exact Except.noConfusion hrun
          | ok fx_spread =>
            rw [simulate_unfold_main qqqRaw fxRaw hc snap cm sm startD endD m tm td
              commission fx_spread hq' hpick htd' hcm hsm] at hrun
            have hL : L = ⟨ledgerCols,
                (simLoop snap m commission fx_spread
                  (fxRateOf fxRaw hc snap (qqqIdxOf qqqRaw)) (qqqPriceOf qqqRaw) td
                  (some 0)).1⟩ :=
              (congrArg Prod.fst (Except.ok.inj hrun)).symm
            rw [hL]
            intro r hr
            obtain ⟨h1, h2, h3, h4, h5, h6, h7, h8, h9⟩ :=
              simLoop_row_shape snap m commission fx_spread
                (fxRateOf fxRaw hc snap (qqqIdxOf qqqRaw)) (qqqPriceOf qqqRaw) td
                (some 0) r hr
            constructor
            · rw [h7, h1, h2, h3]
              rfl
            · rw [h7]
              exact fltB_fmax0_zero _

set_option maxRecDepth 8000 in
/-- C8 (witness): with a 50 TWD contribution the 3 USD commission exceeds the
converted amount; the recorded net is exactly the clamped value and does not
compare below zero. -/
theorem c8_net_never_negative_witness :
    rowC8w.usd_after_fx_and_fee
      = fmax0 (fsub (usdNetFx (usdGross rowC8w.twd_contribution rowC8w.fx_twd_per_usd_mid)
          rowC8w.fx_oneway_spread) (some rowC8w.commission_usd)) ∧
    fltB rowC8w.usd_after_fx_and_fee (some 0) = false :=
  c8_net_never_negative [(d0105, some 400)] [(d0105, some 32)] true .missing "etf_normal"
    "digital" d0101 d0901 50 "month_start" ⟨ledgerCols, [rowC8w]⟩ []
    (by with_unfolding_all rfl) rowC8w (List.mem_singleton.mpr rfl)
